import Mathlib

/-!
Verification development for the PI-USB-Data-Safegate repository.

The development shallowly embeds the parts of the program that the
specification talks about:

* the cleanup scheduler (modules/cleanup_scheduler.py): the persisted
  retention ledger, its load/save round trip, the sweep that enacts
  deletions, and the per-entry deletion step;
* the status manager (modules/status_manager.py): the bounded error list;
* the USB monitor (modules/usb_monitor.py): the known-device set, the
  metadata cache, the event-subscription handlers and one polling cycle;
* the daemon pipeline (daemon.py, USBSafegateService._process_usb_drive):
  the short-circuiting scan/zip/upload/share/email/notify/schedule chain.

External collaborators (scanner, archiver, uploader, notifier, the
filesystem and the wall clock) are modelled as explicit inputs, exactly at
the success/failure interface the code branches on.
-/

/-
Python datetime values, as the cleanup scheduler uses them: a naive
timestamp with year..microsecond fields.  The code calls
datetime.isoformat when saving the ledger, datetime.fromisoformat when
loading it, and subtracts two datetimes and takes .days in the sweep.
-/

structure DateTime where
  year : Nat
  month : Nat
  day : Nat
  hour : Nat
  minute : Nat
  second : Nat
  microsecond : Nat
deriving DecidableEq, Repr

/-
Days from the civil date, Gregorian calendar (the standard
days-from-civil algorithm); this places a datetime on the linear time
line so that subtraction of two datetimes can be modelled.
-/
def daysFromCivil (y m d : Int) : Int :=
  let y1 : Int := y - (if m ≤ 2 then 1 else 0)
  let era : Int := Int.fdiv y1 400
  let yoe : Int := y1 - era * 400
  let mp : Int := Int.fmod (m + 9) 12
  let doy : Int := Int.fdiv (153 * mp + 2) 5 + d - 1
  let doe : Int := yoe * 365 + Int.fdiv yoe 4 - Int.fdiv yoe 100 + doy
  era * 146097 + doe - 719468

/- Microseconds since the epoch: the position of a datetime on the time line. -/
def DateTime.toMicro (dt : DateTime) : Int :=
  ((daysFromCivil dt.year dt.month dt.day) * 86400
      + dt.hour * 3600 + dt.minute * 60 + dt.second) * 1000000
    + dt.microsecond

/-
Python (a - b).days for two datetimes: the timedelta normalises its days
field by flooring, so it is the floor division of the difference in
microseconds by the number of microseconds in a day.
-/
def timedeltaDays (a b : DateTime) : Int :=
  Int.fdiv (a.toMicro - b.toMicro) 86400000000

/- Decimal digit char codes, zero padded, as lists of character codes. -/
def pad2 (n : Nat) : List Nat :=
  [48 + n / 10 % 10, 48 + n % 10]

def pad4 (n : Nat) : List Nat :=
  [48 + n / 1000 % 10, 48 + n / 100 % 10, 48 + n / 10 % 10, 48 + n % 10]

def pad6 (n : Nat) : List Nat :=
  [48 + n / 100000 % 10, 48 + n / 10000 % 10, 48 + n / 1000 % 10,
   48 + n / 100 % 10, 48 + n / 10 % 10, 48 + n % 10]

/-
datetime.isoformat(): YYYY-MM-DDTHH:MM:SS, with .ffffff appended only when
the microsecond field is nonzero.  Strings are modelled as lists of
character codes (45 is the hyphen, 84 is T, 58 is the colon, 46 is the dot).
-/
def isoformat (dt : DateTime) : List Nat :=
  pad4 dt.year ++ 45 :: pad2 dt.month ++ 45 :: pad2 dt.day
    ++ 84 :: pad2 dt.hour ++ 58 :: pad2 dt.minute ++ 58 :: pad2 dt.second
    ++ (if dt.microsecond = 0 then [] else 46 :: pad6 dt.microsecond)

/- A character code for a decimal digit. -/
def isDig (c : Nat) : Prop := 48 ≤ c ∧ c ≤ 57

instance (c : Nat) : Decidable (isDig c) := by
  unfold isDig; infer_instance

/- The numeric value of a digit character code. -/
def digVal (c : Nat) : Nat := c - 48

/-
Shared core of datetime.fromisoformat: checks separators, digits and field
ranges, and rebuilds the datetime; us is the already-parsed microsecond
field (0 when the string has no fractional part).
-/
def parseIsoCore (y1 y2 y3 y4 s1 mo1 mo2 s2 d1 d2 s3 h1 h2 s4 mi1 mi2 s5 se1 se2 us : Nat) :
    Option DateTime :=
  if s1 = 45 ∧ s2 = 45 ∧ s3 = 84 ∧ s4 = 58 ∧ s5 = 58
      ∧ isDig y1 ∧ isDig y2 ∧ isDig y3 ∧ isDig y4
      ∧ isDig mo1 ∧ isDig mo2 ∧ isDig d1 ∧ isDig d2
      ∧ isDig h1 ∧ isDig h2 ∧ isDig mi1 ∧ isDig mi2 ∧ isDig se1 ∧ isDig se2
      ∧ 1 ≤ digVal y1 * 1000 + digVal y2 * 100 + digVal y3 * 10 + digVal y4
      ∧ 1 ≤ digVal mo1 * 10 + digVal mo2 ∧ digVal mo1 * 10 + digVal mo2 ≤ 12
      ∧ 1 ≤ digVal d1 * 10 + digVal d2 ∧ digVal d1 * 10 + digVal d2 ≤ 31
      ∧ digVal h1 * 10 + digVal h2 ≤ 23
      ∧ digVal mi1 * 10 + digVal mi2 ≤ 59
      ∧ digVal se1 * 10 + digVal se2 ≤ 59
      ∧ us ≤ 999999 then
    some ⟨digVal y1 * 1000 + digVal y2 * 100 + digVal y3 * 10 + digVal y4,
          digVal mo1 * 10 + digVal mo2,
          digVal d1 * 10 + digVal d2,
          digVal h1 * 10 + digVal h2,
          digVal mi1 * 10 + digVal mi2,
          digVal se1 * 10 + digVal se2,
          us⟩
  else none

/-
datetime.fromisoformat on the strings datetime.isoformat emits: either the
19-character form without microseconds or the 26-character form with a dot
and six fractional digits.  Anything else fails (raises, modelled none).
-/
def fromisoformat (l : List Nat) : Option DateTime :=
  match l with
  | [y1, y2, y3, y4, s1, mo1, mo2, s2, d1, d2, s3, h1, h2, s4, mi1, mi2, s5, se1, se2] =>
    parseIsoCore y1 y2 y3 y4 s1 mo1 mo2 s2 d1 d2 s3 h1 h2 s4 mi1 mi2 s5 se1 se2 0
  | [y1, y2, y3, y4, s1, mo1, mo2, s2, d1, d2, s3, h1, h2, s4, mi1, mi2, s5, se1, se2,
     dot, u1, u2, u3, u4, u5, u6] =>
    if dot = 46 ∧ isDig u1 ∧ isDig u2 ∧ isDig u3 ∧ isDig u4 ∧ isDig u5 ∧ isDig u6
        ∧ 0 < digVal u1 * 100000 + digVal u2 * 10000 + digVal u3 * 1000
            + digVal u4 * 100 + digVal u5 * 10 + digVal u6 then
      parseIsoCore y1 y2 y3 y4 s1 mo1 mo2 s2 d1 d2 s3 h1 h2 s4 mi1 mi2 s5 se1 se2
        (digVal u1 * 100000 + digVal u2 * 10000 + digVal u3 * 1000
          + digVal u4 * 100 + digVal u5 * 10 + digVal u6)
    else none
  | _ => none

/- The field ranges every Python datetime object satisfies. -/
def DateTime.Valid (dt : DateTime) : Prop :=
  1 ≤ dt.year ∧ dt.year ≤ 9999 ∧ 1 ≤ dt.month ∧ dt.month ≤ 12
    ∧ 1 ≤ dt.day ∧ dt.day ≤ 31 ∧ dt.hour ≤ 23 ∧ dt.minute ≤ 59
    ∧ dt.second ≤ 59 ∧ dt.microsecond ≤ 999999

instance (dt : DateTime) : Decidable dt.Valid := by
  unfold DateTime.Valid; infer_instance

/-
Cleanup scheduler (modules/cleanup_scheduler.py).  An in-memory ledger
entry: {file_path, download_link, upload_time, filename, delete_after_days}
as built by schedule_deletion / add_manual_cleanup.
-/

structure CleanupItem where
  file_path : String
  download_link : String
  upload_time : DateTime
  filename : String
  delete_after_days : Nat
deriving DecidableEq, Repr

/-
An entry as it sits in cleanup_schedule.json: the same record with the
upload_time field rendered as an ISO string (a list of character codes);
the other fields pass through the JSON layer unchanged.
-/
structure StoredItem where
  file_path : String
  download_link : String
  upload_time : List Nat
  filename : String
  delete_after_days : Nat
deriving DecidableEq, Repr

/-
One loop step of load_cleanup_schedule: item["upload_time"] =
datetime.fromisoformat(item["upload_time"]); fails when the string is
unparsable.
-/
def parseStoredItem (s : StoredItem) : Option CleanupItem :=
  (fromisoformat s.upload_time).map
    (fun t => ⟨s.file_path, s.download_link, t, s.filename, s.delete_after_days⟩)

/-
CleanupScheduler.load_cleanup_schedule.  The file argument is none when
cleanup_schedule.json does not exist.  The body loads the whole file and
converts every upload_time in a single try block; any exception (one
unparsable timestamp suffices) is caught and resets the schedule to the
empty list, so the parsed entries survive only when every entry parses.
-/
def load_cleanup_schedule (file : Option (List StoredItem)) : List CleanupItem :=
  match file with
  | none => []
  | some items => (items.mapM parseStoredItem).getD []

/- One item of CleanupScheduler.save_cleanup_schedule: copy and render upload_time. -/
def storeItem (it : CleanupItem) : StoredItem :=
  ⟨it.file_path, it.download_link, isoformat it.upload_time, it.filename,
   it.delete_after_days⟩

/- CleanupScheduler.save_cleanup_schedule: the list written to cleanup_schedule.json. -/
def save_cleanup_schedule (sched : List CleanupItem) : List StoredItem :=
  sched.map storeItem

/- os.path.basename for POSIX paths: the part after the last slash. -/
def pyBasename (p : String) : String :=
  (p.splitOn "/").getLastD p

/-
CleanupScheduler.schedule_deletion: append a new entry with the configured
retention and persist.  upload_time is the current wall-clock datetime,
auto_delete_days comes from the cleanup configuration.
-/
def schedule_deletion (sched : List CleanupItem) (fp link : String)
    (upload_time : DateTime) (auto_delete_days : Nat) : List CleanupItem :=
  sched ++ [⟨fp, link, upload_time, pyBasename fp, auto_delete_days⟩]

/-
The environment one delete_file call sees for one entry: whether the local
artifact file exists, whether os.remove succeeds when attempted, and
whether the cloud deletion (construction of the uploader included)
succeeds and returns True.
-/
structure DeleteEnv where
  localExists : Bool
  localRemoveOk : Bool
  remoteOk : Bool
deriving DecidableEq, Repr

/-
What the local try block of CleanupScheduler.delete_file reports: success
unless the file exists and os.remove raises (a missing file is skipped and
leaves success untouched).
-/
def localReportOk (env : DeleteEnv) : Bool :=
  if env.localExists then env.localRemoveOk else true

/-
CleanupScheduler.delete_file: success starts True, the local try block can
clear it, then the cloud try block clears it when the remote deletion
returns False or raises.
-/
def delete_file (env : DeleteEnv) : Bool :=
  localReportOk env && env.remoteOk

/-
Eligibility test of CleanupScheduler.check_and_cleanup:
(current_time - item["upload_time"]).days >= item["delete_after_days"].
-/
def isDue (current : DateTime) (it : CleanupItem) : Bool :=
  decide ((it.delete_after_days : Int) ≤ timedeltaDays current it.upload_time)

/-
Result of one sweep: the ledger afterwards, the entries the sweep
attempted to delete, and whether the ledger file was rewritten.
-/
structure SweepResult where
  schedule : List CleanupItem
  attempted : List CleanupItem
  saved : Bool
deriving DecidableEq, Repr

/-
CleanupScheduler.check_and_cleanup.  outcome gives the deletion
environment each entry meets during this sweep.  Due entries are
attempted; the successful ones are collected in items_to_remove and then
removed from the schedule one by one with list.remove (first occurrence);
the file is rewritten only when at least one entry was removed.
-/
def check_and_cleanup (current : DateTime) (outcome : CleanupItem → DeleteEnv)
    (sched : List CleanupItem) : SweepResult :=
  let items_to_remove :=
    sched.filter (fun it => isDue current it && delete_file (outcome it))
  { schedule := items_to_remove.foldl (fun acc it => acc.erase it) sched
    attempted := sched.filter (isDue current)
    saved := !items_to_remove.isEmpty }

/-
Status manager (modules/status_manager.py).  One record in the bounded
error list: {"timestamp": datetime.now().isoformat(), "message": msg}.
-/

structure ErrorEntry where
  timestamp : DateTime
  message : String
deriving DecidableEq, Repr

/-
The in-memory current_status dictionary.  uptime is the length of
str(datetime.now() - start_time), kept as the underlying timedelta in
microseconds; its rendering plays no role in any claim.
-/
structure ServiceStatus where
  daemon_status : String
  message : String
  last_activity : Option DateTime
  processing_count : Nat
  errors : List ErrorEntry
  uptime : Option Int
deriving DecidableEq, Repr

/- The dictionary StatusManager.__init__ builds. -/
def initialStatus : ServiceStatus :=
  ⟨"stopped", "Service not started", none, 0, [], none⟩

/- StatusManager.set_status: updates four keys, leaves the others alone. -/
def set_status (s : ServiceStatus) (message status : String)
    (now start : DateTime) : ServiceStatus :=
  { s with daemon_status := status, message := message,
           last_activity := some now,
           uptime := some (now.toMicro - start.toMicro) }

/-
StatusManager.add_error: append the new record, then keep only the last
ten when the list has grown past ten (Python errors[-10:]).
-/
def add_error (s : ServiceStatus) (error_message : String) (now : DateTime) :
    ServiceStatus :=
  let errs := s.errors ++ [⟨now, error_message⟩]
  { s with errors := if 10 < errs.length then errs.drop (errs.length - 10) else errs }

/- StatusManager.increment_processing_count. -/
def increment_processing_count (s : ServiceStatus) : ServiceStatus :=
  { s with processing_count := s.processing_count + 1 }

/- The operations a client can perform on the status record. -/
inductive StatusOp where
  | setStatus (message status : String) (now : DateTime)
  | addError (message : String) (now : DateTime)
  | incCount
  | getStatus
deriving DecidableEq, Repr

/- Dispatch one operation (get_status returns a copy, the state is untouched). -/
def applyStatusOp (start : DateTime) (s : ServiceStatus) (op : StatusOp) :
    ServiceStatus :=
  match op with
  | .setStatus m st t => set_status s m st t start
  | .addError m t => add_error s m t
  | .incCount => increment_processing_count s
  | .getStatus => s

/- A whole client session against the status record. -/
def runStatusOps (start : DateTime) : ServiceStatus → List StatusOp → ServiceStatus
  | s, [] => s
  | s, op :: t => runStatusOps start (applyStatusOp start s op) t

/- All error records a session adds, oldest first. -/
def addedErrors (ops : List StatusOp) : List ErrorEntry :=
  ops.filterMap (fun op =>
    match op with
    | .addError m t => some ⟨t, m⟩
    | _ => none)

/- The last n elements of a list. -/
def takeLast (n : Nat) (l : List ErrorEntry) : List ErrorEntry :=
  l.drop (l.length - n)

/-
USB monitor (modules/usb_monitor.py).  A device record as produced by
_get_usb_storage_devices / _get_device_info.
-/

structure DeviceInfo where
  device : String
  size : String
  label : String
  mount_point : Option String
  transport : String
deriving DecidableEq, Repr

/- Python dict assignment: replace in place when the key exists, else append. -/
def cacheInsert (c : List (String × DeviceInfo)) (k : String) (v : DeviceInfo) :
    List (String × DeviceInfo) :=
  match c with
  | [] => [(k, v)]
  | (k0, v0) :: t => if k0 = k then (k0, v) :: t else (k0, v0) :: cacheInsert t k v

/- Python dict lookup (key in cache / cache[key]). -/
def cacheLookup (c : List (String × DeviceInfo)) (k : String) : Option DeviceInfo :=
  match c with
  | [] => none
  | (k0, v0) :: t => if k0 = k then some v0 else cacheLookup t k

/- Python del cache[key]. -/
def cacheErase (c : List (String × DeviceInfo)) (k : String) :
    List (String × DeviceInfo) :=
  c.filter (fun p => p.1 ≠ k)

/- Python set.add on the known-device set. -/
def setAdd (s : List String) (x : String) : List String :=
  if x ∈ s then s else s ++ [x]

/- Python set.discard on the known-device set. -/
def setDiscard (s : List String) (x : String) : List String :=
  s.filter (fun y => y ≠ x)

/- The mutable state USBMonitor owns: known_devices and device_info_cache. -/
structure MonitorState where
  known_devices : List String
  device_info_cache : List (String × DeviceInfo)
deriving DecidableEq, Repr

/-
USBMonitor._device_inserted.  Adds the path to the known set and the
cache, sleeps the 1s grace period, re-verifies the mount (mountedNow is
what _is_device_mounted reports after the sleep) and fires the insert
callback only on success.  Returns the new state and the fired callback
argument, if any.
-/
def device_inserted (s : MonitorState) (info : DeviceInfo) (mountedNow : Bool) :
    MonitorState × Option DeviceInfo :=
  let s1 : MonitorState :=
    ⟨setAdd s.known_devices info.device,
     cacheInsert s.device_info_cache info.device info⟩
  if mountedNow then (s1, some info) else (s1, none)

/- USBMonitor._device_removed: discard from the known set, fire the removal callback. -/
def device_removed (s : MonitorState) (info : DeviceInfo) : MonitorState × DeviceInfo :=
  (⟨setDiscard s.known_devices info.device, s.device_info_cache⟩, info)

/-
USBMonitor._handle_device_add (event-subscription strategy).  device_node
is the raw event path (None drops the event), isUsb is what
_is_usb_storage_device reports, getInfo what _get_device_info returns and
mounted what _is_device_mounted reports after the grace period.
-/
def handle_device_add (s : MonitorState) (device_node : Option String)
    (isUsb : Bool) (getInfo : String → Option DeviceInfo)
    (mounted : String → Bool) : MonitorState × Option DeviceInfo :=
  match device_node with
  | none => (s, none)
  | some path =>
    if isUsb then
      match getInfo path with
      | some info => device_inserted s info (mounted info.device)
      | none => (s, none)
    else (s, none)

/-
USBMonitor._handle_device_remove (event-subscription strategy): only a
path present in the metadata cache fires _device_removed, after which the
cache entry is deleted.
-/
def handle_device_remove (s : MonitorState) (device_node : Option String) :
    MonitorState × Option DeviceInfo :=
  match device_node with
  | none => (s, none)
  | some path =>
    match cacheLookup s.device_info_cache path with
    | some info =>
      let r := device_removed s info
      (⟨r.1.known_devices, cacheErase r.1.device_info_cache path⟩, some info)
    | none => (s, none)

/-
One step of the insert loop of _monitor_with_polling: fire
_device_inserted for one newly seen device, accumulating the fired
callbacks.
-/
def pollInsertStep (mounted : String → Bool)
    (acc : MonitorState × List DeviceInfo) (d : DeviceInfo) :
    MonitorState × List DeviceInfo :=
  let r := device_inserted acc.1 d (mounted d.device)
  (r.1, acc.2 ++ r.2.toList)

/-
One step of the removal loop of _monitor_with_polling: a path still in
the metadata cache fires _device_removed and is deleted from the cache;
an uncached path is skipped.
-/
def pollRemoveStep (acc : MonitorState × List DeviceInfo) (p : String) :
    MonitorState × List DeviceInfo :=
  match cacheLookup acc.1.device_info_cache p with
  | some info =>
    let r := device_removed acc.1 info
    (⟨r.1.known_devices, cacheErase r.1.device_info_cache p⟩, acc.2 ++ [info])
  | none => acc

/-
One iteration of USBMonitor._monitor_with_polling.  current is what
_get_usb_storage_devices enumerates this cycle, mounted the
_is_device_mounted oracle used inside _device_inserted.  New devices are
the enumerated ones not in the known set, removed paths the known ones no
longer enumerated; afterwards the known set is overwritten with the
enumerated paths and the cache refreshed with every enumerated device.
Returns the state after the cycle, the fired insert callbacks and the
fired removal callbacks, in order.
-/
def pollCycle (s : MonitorState) (current : List DeviceInfo)
    (mounted : String → Bool) : MonitorState × List DeviceInfo × List DeviceInfo :=
  let currentPaths := current.map (fun d => d.device)
  let step :=
    (current.filter (fun d => d.device ∉ s.known_devices)).foldl
      (pollInsertStep mounted) (s, [])
  let removedPaths := step.1.known_devices.filter (fun p => p ∉ currentPaths)
  let step2 := removedPaths.foldl pollRemoveStep (step.1, [])
  let final : MonitorState :=
    ⟨currentPaths,
     current.foldl (fun c d => cacheInsert c d.device d) step2.1.device_info_cache⟩
  (final, step.2, step2.2)

/-
Daemon pipeline (daemon.py, USBSafegateService._process_usb_drive).  The
collaborator results one job meets, at exactly the interface the code
branches on.
-/

structure PipelineEnv where
  mount_point : Option String
  mount_point_exists : Bool
  infected_files : List String
  safe_files : List String
  zip_path : Option String
  upload_success : Bool
  upload_remote_path : String
  share_link : Option String
  email_address : Option String
  email_sent : Bool
deriving DecidableEq, Repr

/-
Which effects one run of _process_usb_drive produced.  An Attempted flag
is true when the corresponding collaborator call was reached at all;
finalPhase is the status phase of the last set_status call inside the
method (none when the mount-point guard returned before any).
-/
structure PipelineTrace where
  scanned : Bool
  zipAttempted : Bool
  uploadAttempted : Bool
  shareAttempted : Bool
  emailRequested : Bool
  notifyAttempted : Bool
  scheduled : Bool
  finalPhase : Option String
deriving DecidableEq, Repr

/-
The guard at the top of _process_usb_drive: if not mount_point or not
os.path.exists(mount_point): return.  An absent or empty mount point is
falsy.
-/
def mountValid (env : PipelineEnv) : Bool :=
  (match env.mount_point with
   | none => false
   | some mp => !(mp = "")) && env.mount_point_exists

/-
USBSafegateService._process_usb_drive: the sequential, short-circuiting
scan / infected-branch / zip / upload / share / email / notify / schedule
chain, returning the effect trace and the cleanup ledger afterwards.
-/
def process_usb_drive (env : PipelineEnv) (sched : List CleanupItem)
    (now : DateTime) (auto_delete_days : Nat) : PipelineTrace × List CleanupItem :=
  if mountValid env then
    if env.infected_files ≠ [] then
      (⟨true, false, false, false, false, false, false, some "error"⟩, sched)
    else if env.safe_files = [] then
      (⟨true, false, false, false, false, false, false, some "idle"⟩, sched)
    else
      match env.zip_path with
      | none => (⟨true, true, false, false, false, false, false, some "error"⟩, sched)
      | some _ =>
        if !env.upload_success then
          (⟨true, true, true, false, false, false, false, some "error"⟩, sched)
        else
          match env.share_link with
          | none => (⟨true, true, true, true, false, false, false, some "error"⟩, sched)
          | some link =>
            match env.email_address with
            | none =>
              (⟨true, true, true, true, true, false, false, some "warning"⟩, sched)
            | some _ =>
              if env.email_sent then
                (⟨true, true, true, true, true, true, true, some "success"⟩,
                 schedule_deletion sched env.upload_remote_path link now
                   auto_delete_days)
              else
                (⟨true, true, true, true, true, true, false, some "error"⟩, sched)
  else
    (⟨false, false, false, false, false, false, false, none⟩, sched)

/-!
Helper lemmas.
-/

/- Rendering a valid datetime and parsing it back is the identity. -/
theorem fromisoformat_isoformat (dt : DateTime) (h : dt.Valid) :
    fromisoformat (isoformat dt) = some dt := by
  rcases dt with ⟨y, mo, d, hh, mi, se, us⟩
  simp only [DateTime.Valid] at h
  obtain ⟨h1, h2, h3, h4, h5, h6, h7, h8, h9, h10⟩ := h
  by_cases hus : us = 0
  · subst hus
    simp only [isoformat, pad4, pad2, pad6, eq_self_iff_true, if_true]
    simp only [List.cons_append, List.nil_append, List.append_nil]
    rw [fromisoformat]
    unfold parseIsoCore
    split
    · simp only [Option.some.injEq, DateTime.mk.injEq, digVal, and_true, true_and]
      omega
    · rename_i hcond
      exfalso
      apply hcond
      simp only [isDig, digVal, and_true, true_and]
      omega
  · simp only [isoformat, pad4, pad2, pad6]
    rw [if_neg hus]
    simp only [List.cons_append, List.nil_append, List.append_nil]
    rw [fromisoformat]
    split
    · unfold parseIsoCore
      split
      · simp only [Option.some.injEq, DateTime.mk.injEq, digVal, and_true, true_and]
        omega
      · rename_i hcond
        exfalso
        apply hcond
        simp only [isDig, digVal, and_true, true_and]
        omega
    · rename_i hcond
      exfalso
      apply hcond
      simp only [isDig, digVal, and_true, true_and]
      omega

/- Saving one entry and parsing it back yields the entry. -/
theorem parseStoredItem_storeItem (it : CleanupItem) (h : it.upload_time.Valid) :
    parseStoredItem (storeItem it) = some it := by
  simp only [parseStoredItem, storeItem, fromisoformat_isoformat it.upload_time h]
  rfl

/- One unparsable entry makes the whole Option-monad traversal fail. -/
theorem mapM_parseStored_eq_none (items : List StoredItem) (s : StoredItem)
    (hs : s ∈ items) (hnone : parseStoredItem s = none) :
    items.mapM parseStoredItem = none := by
  induction items with
  | nil => cases hs
  | cons a t ih =>
    rw [List.mapM_cons]
    rcases List.mem_cons.mp hs with rfl | hmem
    · rw [hnone]
      rfl
    · cases hpa : parseStoredItem a with
      | none => rfl
      | some b =>
        rw [ih hmem]
        rfl

/- Growing the dividend cannot shrink the floored day difference. -/
theorem timedeltaDays_mono (a b c : DateTime) (h : a.toMicro ≤ b.toMicro) :
    timedeltaDays a c ≤ timedeltaDays b c := by
  unfold timedeltaDays
  rw [Int.fdiv_eq_ediv _ (by norm_num), Int.fdiv_eq_ediv _ (by norm_num)]
  exact Int.ediv_le_ediv (by norm_num) (by omega)

/-
Folding list.remove over the elements of a filtered prefix: removing every
element that satisfies p from the very list it was filtered out of leaves
exactly the elements that do not satisfy p.
-/
theorem foldl_erase_cons {α : Type} [DecidableEq α] (p : α → Bool) (a : α)
    (hpa : p a = false) (items : List α) :
    ∀ (acc : List α), (∀ x ∈ items, p x = true) →
      items.foldl (fun l x => l.erase x) (a :: acc)
        = a :: items.foldl (fun l x => l.erase x) acc := by
  induction items with
  | nil => intro acc _; rfl
  | cons b t ih =>
    intro acc hall
    have hb : p b = true := hall b (List.mem_cons_self b t)
    have hab : ¬(a == b) = true := by
      intro hcontra
      rw [beq_iff_eq] at hcontra
      rw [hcontra, hb] at hpa
      cases hpa
    simp only [List.foldl_cons]
    rw [List.erase_cons_tail hab]
    exact ih (acc.erase b) (fun x hx => hall x (List.mem_cons_of_mem b hx))

/- Removing the filtered items from the original list keeps the complement. -/
theorem foldl_erase_filter {α : Type} [DecidableEq α] (p : α → Bool) :
    ∀ l : List α,
      (l.filter p).foldl (fun acc x => acc.erase x) l = l.filter (fun x => !(p x)) := by
  intro l
  induction l with
  | nil => rfl
  | cons a t ih =>
    by_cases hpa : p a = true
    · rw [List.filter_cons_of_pos hpa]
      simp only [List.foldl_cons, List.erase_cons_head]
      rw [ih, List.filter_cons_of_neg (by simp [hpa])]
    · have hpa2 : p a = false := by
        cases hval : p a
        · rfl
        · exact absurd hval hpa
      rw [List.filter_cons_of_neg (by simp [hpa2]),
        List.filter_cons_of_pos (by simp [hpa2])]
      rw [foldl_erase_cons p a hpa2 _ t (fun x hx => (List.mem_filter.mp hx).2), ih]

/- Which entries survive a sweep: exactly those not both due and successfully deleted. -/
theorem mem_sweep_schedule (current : DateTime) (outcome : CleanupItem → DeleteEnv)
    (sched : List CleanupItem) (it : CleanupItem) :
    it ∈ (check_and_cleanup current outcome sched).schedule ↔
      it ∈ sched ∧ ¬(isDue current it = true ∧ delete_file (outcome it) = true) := by
  unfold check_and_cleanup
  simp only [foldl_erase_filter, List.mem_filter, Bool.not_eq_true', Bool.and_eq_false_iff]
  constructor
  · rintro ⟨hm, hcase⟩
    refine ⟨hm, ?_⟩
    rintro ⟨hdue, hdel⟩
    rcases hcase with hc | hc
    · rw [hdue] at hc; cases hc
    · rw [hdel] at hc; cases hc
  · rintro ⟨hm, hno⟩
    refine ⟨hm, ?_⟩
    cases hdue : isDue current it
    · exact Or.inl rfl
    · cases hdel : delete_file (outcome it)
      · exact Or.inr rfl
      · exact absurd ⟨hdue, hdel⟩ hno

/- Looking up the key just written finds the written value. -/
theorem cacheLookup_cacheInsert (c : List (String × DeviceInfo)) (k : String)
    (v : DeviceInfo) : cacheLookup (cacheInsert c k v) k = some v := by
  induction c with
  | nil => simp [cacheInsert, cacheLookup]
  | cons p t ih =>
    by_cases hk : p.1 = k
    · simp [cacheInsert, cacheLookup, hk]
    · simp [cacheInsert, cacheLookup, hk, ih]

/- The insert loop of a polling cycle fires exactly the mounted new devices. -/
theorem pollInsertStep_fold_snd (mounted : String → Bool) (ds : List DeviceInfo) :
    ∀ (s : MonitorState) (f : List DeviceInfo),
      (ds.foldl (pollInsertStep mounted) (s, f)).2
        = f ++ ds.filter (fun d => mounted d.device) := by
  induction ds with
  | nil => intro s f; simp
  | cons d t ih =>
    intro s f
    simp only [List.foldl_cons]
    cases hm : mounted d.device
    · rw [show pollInsertStep mounted (s, f) d
          = ((device_inserted s d (mounted d.device)).1, f) by
            simp [pollInsertStep, device_inserted, hm]]
      rw [ih, List.filter_cons_of_neg (by simp [hm])]
    · rw [show pollInsertStep mounted (s, f) d
          = ((device_inserted s d (mounted d.device)).1, f ++ [d]) by
            simp [pollInsertStep, device_inserted, hm]]
      rw [ih, List.filter_cons_of_pos (by simp [hm])]
      simp

/-
Appending one record to a list that is the last ten of some history gives
the last ten of the extended history, under the add_error truncation rule.
-/
theorem add_error_errors (s : ServiceStatus) (hist : List ErrorEntry)
    (he : s.errors = takeLast 10 hist) (m : String) (now : DateTime) :
    (add_error s m now).errors = takeLast 10 (hist ++ [⟨now, m⟩]) := by
  unfold add_error takeLast
  simp only [he, takeLast, List.length_append, List.length_drop, List.length_cons,
    List.length_nil]
  by_cases hk : hist.length ≤ 9
  · have e0 : hist.length - 10 = 0 := by omega
    rw [if_neg (by omega)]
    rw [e0]
    have e1 : hist.length + 1 - 10 = 0 := by omega
    rw [e1]
    simp
  · rw [if_pos (by omega)]
    have e1 : hist.length - (hist.length - 10) + 0 + 1 - 10 = 1 := by omega
    rw [e1]
    rw [List.drop_append_eq_append_drop, List.drop_drop, List.drop_append_eq_append_drop,
      List.length_drop]
    have e2 : 1 - (hist.length - (hist.length - 10)) = 0 := by omega
    have e3 : hist.length - 10 + 1 = hist.length + 1 - 10 := by omega
    have e4 : hist.length + 1 - 10 - hist.length = 0 := by omega
    rw [e2, e3, e4]

/- After any session, the error list is the last ten of all added records. -/
theorem runStatusOps_errors (start : DateTime) (ops : List StatusOp) :
    ∀ (s : ServiceStatus) (hist : List ErrorEntry),
      s.errors = takeLast 10 hist →
      (runStatusOps start s ops).errors = takeLast 10 (hist ++ addedErrors ops) := by
  induction ops with
  | nil =>
    intro s hist he
    simpa [runStatusOps, addedErrors] using he
  | cons op t ih =>
    intro s hist he
    cases op with
    | setStatus m st tm =>
      show (runStatusOps start (set_status s m st tm start) t).errors
          = takeLast 10 (hist ++ addedErrors (.setStatus m st tm :: t))
      have h2 : (set_status s m st tm start).errors = takeLast 10 hist := he
      have h3 := ih (set_status s m st tm start) hist
      rw [h3 h2]
      simp [addedErrors]
    | addError m tm =>
      show (runStatusOps start (add_error s m tm) t).errors
          = takeLast 10 (hist ++ addedErrors (.addError m tm :: t))
      have h2 : (add_error s m tm).errors = takeLast 10 (hist ++ [⟨tm, m⟩]) :=
        add_error_errors s hist he m tm
      have h3 := ih (add_error s m tm) (hist ++ [(⟨tm, m⟩ : ErrorEntry)])
      rw [h3 h2]
      simp [addedErrors]
    | incCount =>
      show (runStatusOps start (increment_processing_count s) t).errors
          = takeLast 10 (hist ++ addedErrors (.incCount :: t))
      have h2 : (increment_processing_count s).errors = takeLast 10 hist := he
      have h3 := ih (increment_processing_count s) hist
      rw [h3 h2]
      simp [addedErrors]
    | getStatus =>
      show (runStatusOps start s t).errors
          = takeLast 10 (hist ++ addedErrors (.getStatus :: t))
      have h3 := ih s hist
      rw [h3 he]
      simp [addedErrors]

/-!
Concrete values used by witnesses.
-/

/- A ledger entry uploaded on 2024-01-01 with a 7-day retention. -/
def item0 : CleanupItem :=
  ⟨"/var/cache/usb_upload_20240101.zip", "https://cloud.example/s/abc123",
   ⟨2024, 1, 1, 0, 0, 0, 0⟩, "usb_upload_20240101.zip", 7⟩

/- Exactly seven days after the upload time of item0. -/
def dt7 : DateTime := ⟨2024, 1, 8, 0, 0, 0, 0⟩

/- A stored entry whose upload_time string (a single x) cannot be parsed. -/
def badStored : StoredItem :=
  ⟨"/tmp/x.zip", "https://cloud.example/s/bad", [120], "x.zip", 7⟩

/-- C4: an entry that a sweep processes (it is due at the sweep time) is
removed from the ledger exactly when both the local deletion step and the
remote deletion report success in that sweep; on any partial failure it
stays in the ledger, it is attempted by the sweep, and it stays due at
every later sweep time, so every subsequent sweep re-attempts it until
both deletions succeed. -/
theorem sweep_remove_iff_both_deletions (sched : List CleanupItem)
    (current curr2 : DateTime) (outcome : CleanupItem → DeleteEnv)
    (it : CleanupItem) (hmem : it ∈ sched) (hdue : isDue current it = true) :
    (it ∉ (check_and_cleanup current outcome sched).schedule ↔
      localReportOk (outcome it) = true ∧ (outcome it).remoteOk = true)
    ∧ it ∈ (check_and_cleanup current outcome sched).attempted
    ∧ (current.toMicro ≤ curr2.toMicro → isDue curr2 it = true) := by
  refine ⟨?_, ?_, ?_⟩
  · rw [mem_sweep_schedule]
    constructor
    · intro h
      have hdd : isDue current it = true ∧ delete_file (outcome it) = true := by
        by_contra hno
        exact h ⟨hmem, hno⟩
      have := hdd.2
      rw [delete_file, Bool.and_eq_true] at this
      exact this
    · rintro ⟨hl, hr⟩ ⟨_, hno⟩
      exact hno ⟨hdue, by rw [delete_file, hl, hr]; rfl⟩
  · simp [check_and_cleanup, List.mem_filter, hmem, hdue]
  · intro hle
    rw [isDue, decide_eq_true_eq] at hdue ⊢
    exact le_trans hdue (timedeltaDays_mono current curr2 it.upload_time hle)

/-- C4 witness: a concrete due entry with both deletions succeeding. -/
theorem sweep_remove_iff_both_deletions_witness :
    item0 ∈ [item0] ∧ isDue dt7 item0 = true
      ∧ ((item0 ∉ (check_and_cleanup dt7 (fun _ => ⟨true, true, true⟩)
              [item0]).schedule ↔
            localReportOk ((fun _ => (⟨true, true, true⟩ : DeleteEnv)) item0) = true
              ∧ ((fun _ => (⟨true, true, true⟩ : DeleteEnv)) item0).remoteOk = true)
          ∧ item0 ∈ (check_and_cleanup dt7 (fun _ => ⟨true, true, true⟩)
              [item0]).attempted
          ∧ (dt7.toMicro ≤ dt7.toMicro → isDue dt7 item0 = true)) :=
  ⟨List.mem_singleton.mpr rfl, by decide,
   sweep_remove_iff_both_deletions [item0] dt7 dt7 (fun _ => ⟨true, true, true⟩)
     item0 (List.mem_singleton.mpr rfl) (by decide)⟩

/-- C6: an entry whose sweep time is exactly its upload time plus its
retention in whole days is classified as due (the comparison is
inclusive), and any sweep run at that time attempts it. -/
theorem sweep_due_exactly_at_retention (it : CleanupItem) (current : DateTime)
    (h : current.toMicro
        = it.upload_time.toMicro + it.delete_after_days * 86400000000) :
    isDue current it = true
    ∧ ∀ (outcome : CleanupItem → DeleteEnv) (sched : List CleanupItem),
        it ∈ sched → it ∈ (check_and_cleanup current outcome sched).attempted := by
  have hdue : isDue current it = true := by
    rw [isDue, decide_eq_true_eq, timedeltaDays, h]
    have e1 : it.upload_time.toMicro + it.delete_after_days * 86400000000
        - it.upload_time.toMicro = (it.delete_after_days : Int) * 86400000000 := by
      ring
    rw [e1, Int.mul_fdiv_cancel _ (by norm_num)]
  refine ⟨hdue, fun outcome sched hmem => ?_⟩
  simp [check_and_cleanup, List.mem_filter, hmem, hdue]

/-- C6 witness: item0 is due exactly seven days after its upload. -/
theorem sweep_due_exactly_at_retention_witness :
    dt7.toMicro = item0.upload_time.toMicro
        + item0.delete_after_days * 86400000000
      ∧ isDue dt7 item0 = true
      ∧ item0 ∈ (check_and_cleanup dt7 (fun _ => ⟨true, true, true⟩)
          [item0]).attempted :=
  ⟨by decide,
   (sweep_due_exactly_at_retention item0 dt7 (by decide)).1,
   (sweep_due_exactly_at_retention item0 dt7 (by decide)).2
     (fun _ => ⟨true, true, true⟩) [item0] (List.mem_singleton.mpr rfl)⟩

/- Saving a ledger whose timestamps are representable parses back entrywise. -/
theorem mapM_parse_save (sched : List CleanupItem)
    (h : ∀ it ∈ sched, it.upload_time.Valid) :
    (sched.map storeItem).mapM parseStoredItem = some sched := by
  induction sched with
  | nil => rfl
  | cons a t ih =>
    rw [List.map_cons, List.mapM_cons,
      parseStoredItem_storeItem a (h a (List.mem_cons_self a t)),
      ih (fun x hx => h x (List.mem_cons_of_mem a hx))]
    rfl

/-- C7: saving the in-memory ledger and loading the saved file reproduces
the ledger exactly — every {path, remote link, upload time, filename,
retention} tuple, in the same order — whenever the entries carry
representable (valid Python datetime) timestamps. -/
theorem save_load_roundtrip (sched : List CleanupItem)
    (h : ∀ it ∈ sched, it.upload_time.Valid) :
    load_cleanup_schedule (some (save_cleanup_schedule sched)) = sched := by
  rw [load_cleanup_schedule, save_cleanup_schedule, mapM_parse_save sched h]
  rfl

/-- C7 witness: the round trip on a concrete one-entry ledger. -/
theorem save_load_roundtrip_witness :
    (∀ it ∈ [item0], it.upload_time.Valid)
      ∧ load_cleanup_schedule (some (save_cleanup_schedule [item0])) = [item0] :=
  ⟨by decide, save_load_roundtrip [item0] (by decide)⟩

/-- C9: when the local artifact file of a due entry no longer exists, the
local try block of delete_file skips the removal and reports success, so
the overall deletion result equals the remote deletion result alone and
remote success suffices to drop the entry from the ledger. -/
theorem delete_file_missing_local (env : DeleteEnv)
    (h : env.localExists = false) :
    localReportOk env = true ∧ delete_file env = env.remoteOk := by
  rw [localReportOk, delete_file, localReportOk, h]
  simp

/-- C9 witness: a concrete environment with a missing local file. -/
theorem delete_file_missing_local_witness :
    (⟨false, false, true⟩ : DeleteEnv).localExists = false
      ∧ localReportOk ⟨false, false, true⟩ = true
      ∧ delete_file ⟨false, false, true⟩
          = (⟨false, false, true⟩ : DeleteEnv).remoteOk :=
  ⟨rfl, (delete_file_missing_local ⟨false, false, true⟩ rfl).1,
   (delete_file_missing_local ⟨false, false, true⟩ rfl).2⟩

/-- C5 counterexample: a ledger file holding one perfectly parsable entry
next to one entry with an unparsable timestamp loads as the empty ledger —
the parsable sibling is discarded, contradicting the claim that every
parsable entry in the file is retained. -/
theorem load_drops_good_sibling :
    load_cleanup_schedule (some [storeItem item0, badStored]) = []
    ∧ parseStoredItem (storeItem item0) = some item0 := by
  constructor
  · rfl
  · rfl

/-- C5 amended: the load never aborts, but corruption tolerance is all or
nothing: when every entry parses the parsed ledger is kept, and when any
entry has an unparsable timestamp the single try block catches the error
and resets the whole ledger to empty, well-formed siblings included. -/
theorem load_all_or_nothing (items : List StoredItem) :
    (∀ parsed, items.mapM parseStoredItem = some parsed →
        load_cleanup_schedule (some items) = parsed)
    ∧ (∀ s ∈ items, parseStoredItem s = none →
        load_cleanup_schedule (some items) = []) := by
  constructor
  · intro parsed hp
    rw [load_cleanup_schedule, hp]
    rfl
  · intro s hs hn
    rw [load_cleanup_schedule, mapM_parseStored_eq_none items s hs hn]
    rfl

/-- C5 amended witness: an all-good file loads in full, a file with one
bad entry loads as empty. -/
theorem load_all_or_nothing_witness :
    load_cleanup_schedule (some [storeItem item0]) = [item0]
      ∧ load_cleanup_schedule (some [storeItem item0, badStored]) = [] :=
  ⟨(load_all_or_nothing [storeItem item0]).1 [item0] rfl,
   (load_all_or_nothing [storeItem item0, badStored]).2 badStored
     (List.mem_cons_of_mem _ (List.mem_singleton.mpr rfl)) rfl⟩

/-- C8: over any session of status operations starting from the freshly
initialised record, the error list always equals the last ten error
records ever added (so it never exceeds ten entries and older records are
evicted first), and the operations other than add_error — set_status,
increment_processing_count and get_status — leave the error list
untouched. -/
theorem status_error_ring_bounded (start : DateTime) (ops : List StatusOp)
    (s : ServiceStatus) (m st : String) (tm : DateTime) :
    (runStatusOps start initialStatus ops).errors = takeLast 10 (addedErrors ops)
    ∧ (runStatusOps start initialStatus ops).errors.length ≤ 10
    ∧ (applyStatusOp start s (.setStatus m st tm)).errors = s.errors
    ∧ (applyStatusOp start s .incCount).errors = s.errors
    ∧ (applyStatusOp start s .getStatus).errors = s.errors := by
  have hmain : (runStatusOps start initialStatus ops).errors
      = takeLast 10 ([] ++ addedErrors ops) :=
    runStatusOps_errors start ops initialStatus [] rfl
  rw [List.nil_append] at hmain
  refine ⟨hmain, ?_, rfl, rfl, rfl⟩
  rw [hmain, takeLast, List.length_drop]
  omega

/-!
Concrete monitor values used by witnesses and counterexamples.
-/

/- A device snapshot for a mounted USB partition. -/
def info0 : DeviceInfo :=
  ⟨"/dev/sdb1", "16G", "USBSTICK", some "/media/usb0", "usb"⟩

/- A monitor state that already knows and caches info0. -/
def state0 : MonitorState :=
  ⟨["/dev/sdb1"], [("/dev/sdb1", info0)]⟩

/-- C3: when the post-grace-period mount verification fails, the insert
handler fires no insert callback, yet the device path has already been
added to the known set and the cache, so a later removal event still
finds it and clears it with a removal callback. -/
theorem unverified_insert_no_callback (s : MonitorState) (info : DeviceInfo) :
    (device_inserted s info false).2 = none
    ∧ info.device ∈ (device_inserted s info false).1.known_devices
    ∧ (handle_device_remove (device_inserted s info false).1
        (some info.device)).2 = some info
    ∧ info.device ∉ (handle_device_remove (device_inserted s info false).1
        (some info.device)).1.known_devices := by
  refine ⟨rfl, ?_, ?_, ?_⟩
  · show info.device ∈ setAdd s.known_devices info.device
    rw [setAdd]
    by_cases hmem : info.device ∈ s.known_devices
    · rwa [if_pos hmem]
    · rw [if_neg hmem]
      exact List.mem_append_right _ (List.mem_singleton.mpr rfl)
  · show (handle_device_remove
        ⟨setAdd s.known_devices info.device,
         cacheInsert s.device_info_cache info.device info⟩
        (some info.device)).2 = some info
    rw [handle_device_remove]
    rw [cacheLookup_cacheInsert]
  · show info.device ∉ (handle_device_remove
        ⟨setAdd s.known_devices info.device,
         cacheInsert s.device_info_cache info.device info⟩
        (some info.device)).1.known_devices
    rw [handle_device_remove]
    rw [cacheLookup_cacheInsert]
    intro hmem
    simp only [device_removed, setDiscard, List.mem_filter,
      decide_eq_true_eq] at hmem
    exact hmem.2 rfl

/- A second, not yet known device snapshot. -/
def info1 : DeviceInfo :=
  ⟨"/dev/sdc1", "8G", "Unlabeled", some "/media/usb1", "usb"⟩

/-- C2 counterexample: the event-subscription handler has no known-set
check — a duplicate add signal for a path that is already in the known
set, already cached and still mounted fires the insert callback again,
so known-set membership is not a gate on that path and the claimed
no-re-fire property fails for the event-subscription strategy. -/
theorem pyudev_add_refires_for_known_path :
    "/dev/sdb1" ∈ state0.known_devices
    ∧ (handle_device_add state0 (some "/dev/sdb1") true
        (fun p => if p = "/dev/sdb1" then some info0 else none)
        (fun _ => true)).2 = some info0 := by
  constructor
  · exact List.mem_singleton.mpr rfl
  · rfl

/-- C2 amended: only the polling strategy gates re-detection on known-set
membership: every insert callback fired by a polling cycle is for a device
whose path was outside the known set when the cycle started, so a repeated
observation of an already-known, already-verified path never re-fires
under polling; the event-subscription strategy performs no such check (see
the counterexample, where a duplicate add signal re-fires the callback). -/
theorem polling_insert_gated_by_known_set (s : MonitorState)
    (current : List DeviceInfo) (mounted : String → Bool) (info : DeviceInfo)
    (hfired : info ∈ (pollCycle s current mounted).2.1) :
    info.device ∉ s.known_devices := by
  have h : (pollCycle s current mounted).2.1
      = (current.filter (fun d => decide (d.device ∉ s.known_devices))).filter
          (fun d => mounted d.device) := by
    show ((current.filter (fun d => decide (d.device ∉ s.known_devices))).foldl
        (pollInsertStep mounted) (s, [])).2 = _
    rw [pollInsertStep_fold_snd]
    exact List.nil_append _
  rw [h] at hfired
  exact of_decide_eq_true (List.mem_filter.mp (List.mem_filter.mp hfired).1).2

/-- C2 amended witness: a polling cycle over one known and one new device
fires the insert callback only for the new one. -/
theorem polling_insert_gated_by_known_set_witness :
    info1 ∈ (pollCycle state0 [info0, info1] (fun _ => true)).2.1
    ∧ info1.device ∉ state0.known_devices :=
  ⟨by decide,
   polling_insert_gated_by_known_set state0 [info0, info1] (fun _ => true)
     info1 (by decide)⟩

/-- C10 counterexample: a polling cycle in which a known path disappears
while absent from the metadata cache fires no removal callback and leaves
the cache empty, yet the known set does not stay unchanged — the
end-of-cycle reconciliation drops the path, refuting the claimed frame
property for the polling strategy. -/
theorem poll_removal_unknown_path_drops_known :
    (pollCycle ⟨["/dev/sdb1"], []⟩ [] (fun _ => false)).2.2 = []
    ∧ (pollCycle ⟨["/dev/sdb1"], []⟩ [] (fun _ => false)).1.device_info_cache = []
    ∧ (pollCycle ⟨["/dev/sdb1"], []⟩ [] (fun _ => false)).1.known_devices
        ≠ ["/dev/sdb1"] := by
  refine ⟨rfl, rfl, ?_⟩
  intro h
  rw [show (pollCycle ⟨["/dev/sdb1"], []⟩ [] (fun _ => false)).1.known_devices
      = [] from rfl] at h
  cases h

/-- C10 amended: a candidate removal for a path absent from the metadata
cache fires no removal callback and changes nothing at that handling step
under either strategy — the event-subscription handler returns the state
untouched, and the polling removal step is the identity on its
accumulator; under polling, however, the cycle still ends by overwriting
the known set with the currently enumerated paths, so a vanished path is
dropped from the known set even when it was never cached. -/
theorem removal_unknown_path_noop (s : MonitorState) (p : String)
    (acc : MonitorState × List DeviceInfo) (current : List DeviceInfo)
    (mounted : String → Bool)
    (hs : cacheLookup s.device_info_cache p = none)
    (hacc : cacheLookup acc.1.device_info_cache p = none) :
    handle_device_remove s (some p) = (s, none)
    ∧ pollRemoveStep acc p = acc
    ∧ (pollCycle s current mounted).1.known_devices
        = current.map (fun d => d.device) := by
  refine ⟨?_, ?_, rfl⟩
  · rw [handle_device_remove, hs]
  · rw [pollRemoveStep, hacc]

/-- C10 amended witness: the no-op behaviour at a concrete uncached path. -/
theorem removal_unknown_path_noop_witness :
    cacheLookup (⟨["/dev/sdb1"], []⟩ : MonitorState).device_info_cache
        "/dev/sdb1" = none
    ∧ handle_device_remove ⟨["/dev/sdb1"], []⟩ (some "/dev/sdb1")
        = (⟨["/dev/sdb1"], []⟩, none)
    ∧ pollRemoveStep (⟨["/dev/sdb1"], []⟩, []) "/dev/sdb1"
        = (⟨["/dev/sdb1"], []⟩, [])
    ∧ (pollCycle ⟨["/dev/sdb1"], []⟩ [] (fun _ => false)).1.known_devices
        = ([] : List DeviceInfo).map (fun d => d.device) :=
  ⟨rfl,
   (removal_unknown_path_noop ⟨["/dev/sdb1"], []⟩ "/dev/sdb1"
     (⟨["/dev/sdb1"], []⟩, []) [] (fun _ => false) rfl rfl).1,
   (removal_unknown_path_noop ⟨["/dev/sdb1"], []⟩ "/dev/sdb1"
     (⟨["/dev/sdb1"], []⟩, []) [] (fun _ => false) rfl rfl).2.1,
   (removal_unknown_path_noop ⟨["/dev/sdb1"], []⟩ "/dev/sdb1"
     (⟨["/dev/sdb1"], []⟩, []) [] (fun _ => false) rfl rfl).2.2⟩

/-- C1: for a device job that passes the mount-point guard (a processed
job), cleanup registration fires exactly when the scan reports no infected
files, at least one safe file exists, and archive creation, upload,
share-link creation, email-address acquisition and notification delivery
all succeed — in which case exactly the one new entry built by
schedule_deletion is appended to the ledger; when registration does not
fire the ledger is untouched; and whenever the scan reports any infected
file the pipeline stops at the scan with an error phase: no archive,
upload, share link or ledger entry is produced for that device. -/
theorem pipeline_schedules_iff_all_stages_succeed (env : PipelineEnv)
    (sched : List CleanupItem) (now : DateTime) (auto_delete_days : Nat)
    (h : mountValid env = true) :
    ((process_usb_drive env sched now auto_delete_days).1.scheduled = true ↔
      env.infected_files = [] ∧ env.safe_files ≠ [] ∧ env.zip_path ≠ none
        ∧ env.upload_success = true ∧ env.share_link ≠ none
        ∧ env.email_address ≠ none ∧ env.email_sent = true)
    ∧ ((process_usb_drive env sched now auto_delete_days).1.scheduled = false →
        (process_usb_drive env sched now auto_delete_days).2 = sched)
    ∧ ((process_usb_drive env sched now auto_delete_days).1.scheduled = true →
        (process_usb_drive env sched now auto_delete_days).2
          = schedule_deletion sched env.upload_remote_path
              (env.share_link.getD "") now auto_delete_days)
    ∧ (env.infected_files ≠ [] →
        (process_usb_drive env sched now auto_delete_days).1
          = ⟨true, false, false, false, false, false, false, some "error"⟩
        ∧ (process_usb_drive env sched now auto_delete_days).2 = sched) := by
  unfold process_usb_drive
  rw [if_pos h]
  by_cases hinf : env.infected_files = []
  · rw [if_neg (by simpa using hinf)]
    by_cases hsafe : env.safe_files = []
    · rw [if_pos hsafe]
      simp [hinf, hsafe]
    · rw [if_neg hsafe]
      cases hzip : env.zip_path with
      | none => simp [hinf, hsafe, hzip]
      | some zp =>
        cases hup : env.upload_success
        · simp [hinf, hsafe, hzip, hup]
        · cases hsl : env.share_link with
          | none => simp [hinf, hsafe, hzip, hup, hsl]
          | some link =>
            cases hea : env.email_address with
            | none => simp [hinf, hsafe, hzip, hup, hsl, hea]
            | some addr =>
              cases hes : env.email_sent
              · simp [hinf, hsafe, hzip, hup, hsl, hea, hes]
              · simp [hinf, hsafe, hzip, hup, hsl, hea, hes]
  · rw [if_pos hinf]
    simp [hinf]

/- A job in which every collaborator succeeds. -/
def env0 : PipelineEnv :=
  ⟨some "/media/usb0", true, [],
   ["/media/usb0/report.pdf", "/media/usb0/photo.jpg"],
   some "/tmp/usb_upload.zip", true, "usb_uploads/usb_upload.zip",
   some "https://cloud.example/s/xyz", some "user@example.com", true⟩

/- The same job with one file flagged as infected. -/
def envInfected : PipelineEnv :=
  ⟨some "/media/usb0", true, ["/media/usb0/evil.exe"],
   ["/media/usb0/report.pdf", "/media/usb0/photo.jpg"],
   some "/tmp/usb_upload.zip", true, "usb_uploads/usb_upload.zip",
   some "https://cloud.example/s/xyz", some "user@example.com", true⟩

/-- C1 witness: the all-success job schedules cleanup, and the infected
job produces no archive, upload, share link or ledger entry. -/
theorem pipeline_schedules_iff_all_stages_succeed_witness :
    mountValid env0 = true
    ∧ (process_usb_drive env0 [] dt7 7).1.scheduled = true
    ∧ mountValid envInfected = true
    ∧ (process_usb_drive envInfected [] dt7 7).1
        = ⟨true, false, false, false, false, false, false, some "error"⟩
    ∧ (process_usb_drive envInfected [] dt7 7).2 = [] :=
  ⟨rfl,
   (pipeline_schedules_iff_all_stages_succeed env0 [] dt7 7 rfl).1.mpr
     ⟨rfl, by decide, by decide, rfl, by decide, by decide, rfl⟩,
   rfl,
   ((pipeline_schedules_iff_all_stages_succeed envInfected [] dt7 7 rfl).2.2.2
     (by decide)).1,
   ((pipeline_schedules_iff_all_stages_succeed envInfected [] dt7 7 rfl).2.2.2
     (by decide)).2⟩
